import Mathlib

/-!
# Verification of the URL-embedding proxy rewrite engine

Shallow embedding of the Cloudflare-worker proxy variants in this repository:

* `V1` refers to the first worker variant in `src/_worker.js` (lines 1-363).
* `P` refers to the deduplicated pipeline shared by `src/unnamed/part_003`
  (and the third variant embedded in `src/_worker.js`, lines 575-987);
  the two are textually identical in every portion modelled here.
* `P5` refers to `src/unnamed/part_005` where it differs (Set-Cookie rewrite).

JavaScript strings are modelled by `String` (a structure over `List Char`);
all primitive string operations used by the code (`startsWith`, `slice`,
`substring`, `trim`, `toLowerCase`, regex replaces) are re-implemented below
on the character list so that every definition is executable and provable.

The WHATWG `new URL(ref, base)` constructor is an external platform
capability; it is modelled by `parseHttpUrl` / `resolveStr` for the fragment
of its behaviour the proxy exercises: lowercase `http`/`https` absolute URLs
without userinfo or port, protocol-relative (`//`), root-relative (`/`),
query (`?`), fragment (`#`) and path-relative references, and opaque
non-http schemes (`data:`, `blob:`, `javascript:`, `mailto:`, ...) which
serialize unchanged.  Dot-segment normalization and percent-encoding are not
modelled; no theorem below depends on them.
-/

/-- JavaScript `s.startsWith(p)` (case-sensitive). -/
def strStartsWith (s p : String) : Bool :=
  p.data.isPrefixOf s.data

/-- JavaScript `s.endsWith(p)`. -/
def strEndsWith (s p : String) : Bool :=
  p.data.isSuffixOf s.data

/-- `sub` occurs as a contiguous run inside `l`. -/
def isInfixOfL (sub : List Char) : List Char → Bool
  | [] => sub.isEmpty
  | c :: rest => sub.isPrefixOf (c :: rest) || isInfixOfL sub rest

/-- JavaScript `s.includes(p)`. -/
def strContains (s p : String) : Bool :=
  isInfixOfL p.data s.data

/-- JavaScript `s.slice(n)` / `s.substring(n)` for a non-negative index. -/
def sdropS (s : String) (n : Nat) : String :=
  ⟨s.data.drop n⟩

/-- Length of a string, counted in characters (JS `s.length` for ASCII data). -/
def slenS (s : String) : Nat :=
  s.data.length

/-- JavaScript `s.toLowerCase()` (ASCII case folding, as used by header names
and the case-insensitive regexes of the code). -/
def lowerS (s : String) : String :=
  ⟨s.data.map Char.toLower⟩

/-- JavaScript `s.trim()`: strip leading and trailing whitespace. -/
def trimS (s : String) : String :=
  ⟨(((s.data.dropWhile Char.isWhitespace).reverse.dropWhile Char.isWhitespace).reverse)⟩

/-- Split a character list at the first occurrence of `c`; the second
component contains `c` when present (used to cut `?query` and `#fragment`
parts exactly where the URL parser does). -/
def breakAt (c : Char) (l : List Char) : List Char × List Char :=
  (l.takeWhile (fun x => x ≠ c), l.dropWhile (fun x => x ≠ c))

/-- Longest run of characters satisfying `p` at the head of the list,
together with the remainder (the engine of the regex scanners below). -/
def splitRun (p : Char → Bool) : List Char → List Char × List Char
  | [] => ([], [])
  | c :: cs =>
    if p c then
      let r := splitRun p cs
      (c :: r.1, r.2)
    else ([], c :: cs)

theorem splitRun_snd_length_le (p : Char → Bool) (l : List Char) :
    (splitRun p l).2.length ≤ l.length := by
  induction l with
  | nil => simp [splitRun]
  | cons c cs ih =>
    by_cases h : p c
    · simp only [splitRun, h, if_true]
      exact Nat.le_succ_of_le ih
    · simp [splitRun, h]

/-!
## The URL data model

A parsed hierarchical `http(s)` URL, as the worker observes it through the
platform `URL` class: `scheme`, `host`, `pathname` (always starting with
`/`), `search` (empty or starting with `?`), `hash` (empty or starting
with `#`).
-/

structure Url where
  scheme : String
  host : String
  pathname : String
  search : String
  hash : String
deriving Repr, DecidableEq

/-- JS `url.origin` for an http(s) URL. -/
def Url.origin (u : Url) : String :=
  u.scheme ++ "://" ++ u.host

/-- JS `url.href`: the serialization. -/
def Url.href (u : Url) : String :=
  u.scheme ++ "://" ++ u.host ++ u.pathname ++ u.search ++ u.hash

/-- Split `pathQF` (everything after the host) into pathname, search, hash.
An empty path serializes as `/`. -/
def splitPathQF (l : List Char) : String × String × String :=
  let (beforeFrag, frag) := breakAt '#' l
  let (path, query) := breakAt '?' beforeFrag
  (⟨path⟩, ⟨query⟩, ⟨frag⟩)

/-- Parse an absolute lowercase `http://` or `https://` URL
(model of `new URL(s)` succeeding; `none` models the constructor throwing).
The host must be non-empty and userinfo/ports are not modelled. -/
def parseHttpUrl (s : String) : Option Url :=
  let core := fun (scheme : String) (rest : List Char) =>
    let host := rest.takeWhile (fun c => c ≠ '/' && c ≠ '?' && c ≠ '#')
    let tail := rest.dropWhile (fun c => c ≠ '/' && c ≠ '?' && c ≠ '#')
    if host.isEmpty then none
    else
      let pqf := splitPathQF tail
      some { scheme := scheme, host := ⟨host⟩,
             pathname := if pqf.1 = "" then "/" else pqf.1,
             search := pqf.2.1, hash := pqf.2.2 }
  if strStartsWith s "https://" then core "https" (s.data.drop 8)
  else if strStartsWith s "http://" then core "http" (s.data.drop 7)
  else none

/-- Does the string begin with a URL scheme (`[a-zA-Z][a-zA-Z0-9+.-]*:`)?
Detects opaque references such as `data:`, `blob:`, `javascript:`. -/
def hasSchemeS (s : String) : Bool :=
  match s.data with
  | [] => false
  | c :: rest =>
    c.isAlpha &&
      (match rest.dropWhile (fun x => x.isAlphanum || x = '+' || x = '-' || x = '.') with
       | ':' :: _ => true
       | _ => false)

/-- Directory of a path: everything up to and including the last `/`
(relative-reference resolution base). -/
def dirOf (p : String) : String :=
  ⟨(p.data.reverse.dropWhile (fun c => c ≠ '/')).reverse⟩

/-- Resolve a relative reference against a parsed base URL, per the WHATWG
rules the proxy relies on: root-relative `/p` replaces path+query+fragment,
`?q` replaces query+fragment, `#f` replaces the fragment, the empty string
yields the base without its fragment, anything else is joined onto the
directory of the base path. -/
def resolveRel (base : Url) (ref : String) : Url :=
  if strStartsWith ref "/" then
    let pqf := splitPathQF ref.data
    { base with pathname := pqf.1, search := pqf.2.1, hash := pqf.2.2 }
  else if strStartsWith ref "?" then
    let qf := breakAt '#' ref.data
    { base with search := ⟨qf.1⟩, hash := ⟨qf.2⟩ }
  else if strStartsWith ref "#" then { base with hash := ref }
  else if ref = "" then { base with hash := "" }
  else
    let pqf := splitPathQF ((dirOf base.pathname).data ++ ref.data)
    { base with pathname := pqf.1, search := pqf.2.1, hash := pqf.2.2 }

/-- Model of `new URL(ref, base).href` for a valid http(s) `base`:
absolute http(s) references are re-parsed, protocol-relative references take
the base scheme, opaque non-http schemes serialize unchanged, and everything
else resolves relative to the base. `none` models the constructor throwing. -/
def resolveStr (ref : String) (base : Url) : Option String :=
  if strStartsWith ref "http://" || strStartsWith ref "https://" then
    (parseHttpUrl ref).map Url.href
  else if strStartsWith ref "//" then
    (parseHttpUrl (base.scheme ++ ":" ++ ref)).map Url.href
  else if hasSchemeS ref then some ref
  else some (resolveRel base ref).href

/-- Model of `new URL(ref, baseStr).href` where the base itself is a string
(the base is parsed first; an invalid base throws regardless of `ref`). -/
def resolveStrS (ref : String) (baseStr : String) : Option String :=
  (parseHttpUrl baseStr).bind (fun b => resolveStr ref b)

/-!
## Headers

The platform `Headers` class is modelled as an association list whose keys
are stored lowercase.  `hset` models `Headers.set` (replace-or-add; the
model removes and prepends, which preserves the get/set/delete semantics the
code observes — no modelled code path depends on header iteration order),
`hget` models `Headers.get`, `hdel` models `Headers.delete`.
-/

abbrev HeadersL := List (String × String)

/-- `Headers.delete(k)` (case-insensitive). -/
def hdel (l : HeadersL) (k : String) : HeadersL :=
  match l with
  | [] => []
  | p :: rest => if p.1 = lowerS k then hdel rest k else p :: hdel rest k

/-- `Headers.set(k, v)` (case-insensitive; stores the key lowercase). -/
def hset (l : HeadersL) (k v : String) : HeadersL :=
  (lowerS k, v) :: hdel l k

/-- `Headers.get(k)` (case-insensitive) on a list built by `hset`. -/
def hget (l : HeadersL) (k : String) : Option String :=
  match l with
  | [] => none
  | p :: rest => if p.1 = lowerS k then some p.2 else hget rest k

/-- `request.headers.get(k)` on raw incoming headers whose stored keys may
use any case. -/
def hgetIn (l : HeadersL) (k : String) : Option String :=
  match l with
  | [] => none
  | p :: rest => if lowerS p.1 = lowerS k then some p.2 else hgetIn rest k

/-!
## Client shim `wrapUrl` and server-side attribute rewriting

`wrapUrl` is the client-side wrap function emitted into every HTML `head`
(`src/unnamed/part_003` lines 226-236 and `src/_worker.js` lines 789-799).
`rewriteAttrValue` is the per-value transformation of
`AttributeRewriter.element` (`src/_worker.js` lines 904-911,
`src/unnamed/part_003` lines 353-361); the `srcset` and `data-src` handling
of the same method is not needed by any claim and is not modelled.
`REAL_BASE_URL` / `this.currentTargetUrl` is the target URL's href; both are
modelled by the parsed target `base : Url`.
-/

/-- Client-side `wrapUrl(u)` from the injected shim. -/
def wrapUrl (proxyOrigin : String) (base : Url) (u : String) : String :=
  if u = "" then u
  else if strStartsWith u proxyOrigin then u
  else if strStartsWith u "data:" || strStartsWith u "blob:" || strStartsWith u "javascript:" then u
  else
    match resolveStr u base with
    | some abs => proxyOrigin ++ "/" ++ abs
    | none => u

/-- Server-side `AttributeRewriter.element` transformation of the named
URL-bearing attribute value: the `if (value)` block alone, as a value-level
function (the full handler, with its early `return` and its `srcset` and
`data-src` branches, is `rewriteElement` below). -/
def rewriteAttrValue (proxyOrigin : String) (base : Url) (value : String) : String :=
  if value = "" then value
  else if strStartsWith value "data:" || strStartsWith value "#" || strStartsWith value "javascript:" then value
  else
    match resolveStr value base with
    | some abs => proxyOrigin ++ "/" ++ abs
    | none => value

/-!
## The full `AttributeRewriter.element` handler

`part_003` lines 353-382 (`src/_worker.js` lines 904-933).  The handler
reads the named attribute; a truthy value starting with `data:`, `#` or
`javascript:` makes the whole handler `return`, leaving the element
untouched.  Otherwise the named value (if truthy) is resolved and
re-encoded, then — with no skip check of their own — the `srcset` pairs of
an `img` element and a truthy `data-src` value are resolved and re-encoded
in turn.  An element is its (lowercase, as `HTMLRewriter` reports them) tag
name plus its attribute list.
-/

abbrev AttrsL := List (String × String)

/-- `element.getAttribute(name)` (`none` models `null`). -/
def aget (attrs : AttrsL) (name : String) : Option String :=
  (attrs.find? (fun p => p.1 = name)).map (fun p => p.2)

/-- `element.setAttribute(name, v)`: replace in place, or append. -/
def aset (attrs : AttrsL) (name v : String) : AttrsL :=
  if attrs.any (fun p => p.1 = name) then
    attrs.map (fun p => if p.1 = name then (p.1, v) else p)
  else attrs ++ [(name, v)]

/-- `element.hasAttribute(name)`. -/
def ahas (attrs : AttrsL) (name : String) : Bool :=
  (aget attrs name).isSome

structure ElementModel where
  tagName : String
  attrs : AttrsL
deriving Repr, DecidableEq

/-- The skip-prefix test of the named-attribute block
(`value.startsWith("data:") || value.startsWith("#") || value.startsWith("javascript:")`). -/
def skipValue (v : String) : Bool :=
  strStartsWith v "data:" || strStartsWith v "#" || strStartsWith v "javascript:"

/-- One comma-separated `srcset` entry: `const [u, d] = part.trim().split(/\s+/)`,
resolve `u`, keep the descriptor `d` when present; a resolution failure
returns the original (untrimmed) part. -/
def rewriteSrcsetPart (proxyOrigin : String) (base : Url) (part : String) : String :=
  let t := trimS part
  let u : String := ⟨(splitRun (fun c => !c.isWhitespace) t.data).1⟩
  let rest := ((splitRun (fun c => !c.isWhitespace) t.data).2).dropWhile Char.isWhitespace
  match resolveStr u base with
  | some r =>
    proxyOrigin ++ "/" ++ r ++
      (if rest.isEmpty then ""
       else " " ++ (⟨(splitRun (fun c => !c.isWhitespace) rest).1⟩ : String))
  | none => part

/-- `srcset.split(",")`. -/
def splitOnCharL (sep : Char) : List Char → List (List Char)
  | [] => [[]]
  | c :: rest =>
    if c = sep then [] :: splitOnCharL sep rest
    else
      match splitOnCharL sep rest with
      | [] => [[c]]
      | l :: ls => (c :: l) :: ls

/-- `[...].join(", ")`. -/
def intercalateCommaSpace : List String → String
  | [] => ""
  | [s] => s
  | s :: rest => s ++ ", " ++ intercalateCommaSpace rest

def rewriteSrcset (proxyOrigin : String) (base : Url) (srcset : String) : String :=
  intercalateCommaSpace
    ((splitOnCharL ',' srcset.data).map (fun p => rewriteSrcsetPart proxyOrigin base ⟨p⟩))

/-- The `srcset` and `data-src` branches of the handler (lines 362-381),
run on the element state left by the named-attribute block.  Neither branch
has a skip-prefix check: every `srcset` URL and any truthy `data-src` value
is resolved and re-encoded. -/
def rewriteElementRest (proxyOrigin : String) (base : Url) (e : ElementModel) : ElementModel :=
  let e2 :=
    if e.tagName = "img" then
      if ahas e.attrs "srcset" then
        let newSrcset := rewriteSrcset proxyOrigin base ((aget e.attrs "srcset").getD "")
        { e with attrs := aset e.attrs "srcset" newSrcset }
      else e
    else e
  match aget e2.attrs "data-src" with
  | some ds =>
    if ds = "" then e2
    else
      match resolveStr ds base with
      | some abs =>
        { e2 with attrs := aset e2.attrs "data-src" (proxyOrigin ++ "/" ++ abs) }
      | none => e2
  | none => e2

/-- The complete `AttributeRewriter.element` handler.  A truthy named value
with a skip prefix returns the element unchanged (the early `return` exits
the whole method, so `srcset` and `data-src` are skipped too); otherwise
the named value is rewritten when it resolves, and the `srcset` and
`data-src` branches follow. -/
def rewriteElement (proxyOrigin attrName : String) (base : Url) (e : ElementModel) : ElementModel :=
  match aget e.attrs attrName with
  | some v =>
    if v = "" then rewriteElementRest proxyOrigin base e
    else if skipValue v then e
    else
      match resolveStr v base with
      | some abs =>
        rewriteElementRest proxyOrigin base
          { e with attrs := aset e.attrs attrName (proxyOrigin ++ "/" ++ abs) }
      | none => rewriteElementRest proxyOrigin base e
  | none => rewriteElementRest proxyOrigin base e

/-!
## Set-Cookie rewriting

The code uses chained global case-insensitive regex replaces on the raw
`Set-Cookie` value.  Each replace is modelled by a left-to-right scanner
that, like the JS regex engine, resumes immediately after each replaced
match and never rescans emitted output.
-/

/-- Lowercased-prefix test: does `l` begin (case-insensitively) with `name`? -/
def lcPrefix (name : List Char) (l : List Char) : Bool :=
  name.isPrefixOf (l.map Char.toLower)

/-- Drop one leading `;` if present (the `;?` part of the regexes). -/
def dropSemiOpt (l : List Char) : List Char :=
  match l with
  | ';' :: r => r
  | l => l

/-- Scanner for the global replace of `name=value` cookie attributes,
`/name=[^;]+;?/gi → ""` (used with `name = "domain="` and `"samesite="`).
The scanner consumes at least one character per step, so it is written by
structural recursion on a fuel argument; called with `fuel = l.length`
(see `replaceAttrVal`) the fuel never runs out. -/
def replaceAttrValF (name : List Char) : Nat → List Char → List Char
  | _, [] => []
  | 0, l => l
  | fuel + 1, c :: rest =>
    if lcPrefix name (c :: rest) then
      if (splitRun (fun ch => ch ≠ ';') (rest.drop (name.length - 1))).1.isEmpty then
        c :: replaceAttrValF name fuel rest
      else
        replaceAttrValF name fuel
          (dropSemiOpt (splitRun (fun ch => ch ≠ ';') (rest.drop (name.length - 1))).2)
    else c :: replaceAttrValF name fuel rest

def replaceAttrVal (name : List Char) (l : List Char) : List Char :=
  replaceAttrValF name l.length l

/-- Scanner for the global replace of a bare cookie attribute,
`/name;?/gi → ""` (used with `name = "secure"`); fuel as in
`replaceAttrValF`. -/
def replaceAttrBareF (name : List Char) : Nat → List Char → List Char
  | _, [] => []
  | 0, l => l
  | fuel + 1, c :: rest =>
    if name ≠ [] && lcPrefix name (c :: rest) then
      replaceAttrBareF name fuel (dropSemiOpt (rest.drop (name.length - 1)))
    else c :: replaceAttrBareF name fuel rest

def replaceAttrBare (name : List Char) (l : List Char) : List Char :=
  replaceAttrBareF name l.length l

/-- `s.replace(/Domain=[^;]+;?/gi, "")`. -/
def replaceDomain (s : String) : String :=
  ⟨replaceAttrVal "domain=".data s.data⟩

/-- `s.replace(/SameSite=[^;]+;?/gi, "")`. -/
def replaceSameSite (s : String) : String :=
  ⟨replaceAttrVal "samesite=".data s.data⟩

/-- `s.replace(/Secure;?/gi, "")`. -/
def replaceSecure (s : String) : String :=
  ⟨replaceAttrBare "secure".data s.data⟩

/-- `Set-Cookie` rewrite of `src/unnamed/part_005` (lines 150-155):
strip `Domain` only. -/
def rewriteSetCookieP5 (setCookie : String) : String :=
  replaceDomain setCookie

/-- `Set-Cookie` rewrite of variant 1 (`src/_worker.js` lines 139-146):
strip `Domain`, `Secure` and `SameSite`. -/
def rewriteSetCookieV1 (setCookie : String) : String :=
  replaceSameSite (replaceSecure (replaceDomain setCookie))

/-!
## Playlist (M3U8) rewriting

`P` (`src/unnamed/part_003` lines 185-209, `src/_worker.js` lines 747-776)
uses the line-anchored regex `/^(?!#)(?!\s)(.+)$/gm`: a line is transformed
only if it is non-empty and starts with neither `#` nor whitespace.  The
multiline regex is modelled by splitting the text at newline characters,
mapping the per-line transform, and re-joining.

`V1` (`src/_worker.js` lines 255-267) instead performs the global replace
`text.replace(/(https?:\/\/[^\s]+)/g, ...)`, prefixing the proxy origin to
every absolute http(s) URL occurring anywhere in the text; it is modelled by
a left-to-right scanner.
-/

/-- Split a character list at `'\n'` characters. -/
def splitLinesL : List Char → List (List Char)
  | [] => [[]]
  | c :: rest =>
    if c = '\n' then [] :: splitLinesL rest
    else
      match splitLinesL rest with
      | [] => [[c]]
      | l :: ls => (c :: l) :: ls

/-- Split at `'\n'` characters (the line structure seen by the `m` flag). -/
def splitLines (s : String) : List String :=
  (splitLinesL s.data).map (fun l => (⟨l⟩ : String))

/-- Re-join lines with `'\n'`. -/
def joinLines (ls : List String) : String :=
  String.intercalate "\n" ls

/-- Per-line transform of the `P` playlist rewriter: the replacement
callback for a matched line, identity on unmatched (comment / blank /
leading-whitespace / empty) lines. -/
def m3u8MatchedLineP (proxyOrigin : String) (baseStr : String) (line : String) : String :=
  let m := trimS line
  if m = "" then m
  else if strStartsWith m "http" then proxyOrigin ++ "/" ++ m
  else
    match resolveStrS m baseStr with
    | some abs => proxyOrigin ++ "/" ++ abs
    | none => m

def m3u8LineP (proxyOrigin : String) (baseStr : String) (line : String) : String :=
  match line.data with
  | [] => line
  | c :: _ =>
    if c = '#' || c.isWhitespace then line
    else m3u8MatchedLineP proxyOrigin baseStr line

/-- Full-text `P` playlist rewrite. -/
def m3u8TextP (proxyOrigin : String) (baseStr : String) (text : String) : String :=
  joinLines ((splitLines text).map (m3u8LineP proxyOrigin baseStr))

/-- `actualUrlStr.substring(0, actualUrlStr.lastIndexOf("/") + 1)`:
the playlist resolution base. -/
def baseUrlOf (s : String) : String :=
  ⟨(s.data.reverse.dropWhile (fun c => c ≠ '/')).reverse⟩

/-- Does the scanner position start a `/(https?:\/\/[^\s]+)/` match
(scheme followed by at least one non-whitespace character)? -/
def httpMatchAt (l : List Char) : Bool :=
  (("http://".data.isPrefixOf l) && (match l.drop 7 with
    | d :: _ => !d.isWhitespace
    | [] => false))
  || (("https://".data.isPrefixOf l) && (match l.drop 8 with
    | d :: _ => !d.isWhitespace
    | [] => false))

/-- Scanner for the `V1` global replace
`text.replace(/(https?:\/\/[^\s]+)/g, m => m.startsWith(origin) ? m : origin + "/" + m)`;
fuel as in `replaceAttrValF`. -/
def m3u8ScanV1F (origin : List Char) : Nat → List Char → List Char
  | _, [] => []
  | 0, l => l
  | fuel + 1, c :: rest =>
    if httpMatchAt (c :: rest) then
      (fun run =>
        (if origin.isPrefixOf run then run else origin ++ '/' :: run)
          ++ m3u8ScanV1F origin fuel (splitRun (fun ch => !ch.isWhitespace) rest).2)
        (c :: (splitRun (fun ch => !ch.isWhitespace) rest).1)
    else c :: m3u8ScanV1F origin fuel rest

def m3u8ScanV1 (origin : List Char) (l : List Char) : List Char :=
  m3u8ScanV1F origin l.length l

/-- Full-text `V1` playlist rewrite. -/
def m3u8TextV1 (proxyOrigin : String) (text : String) : String :=
  ⟨m3u8ScanV1 proxyOrigin.data text.data⟩

/-!
## V1 bare-hostname completion

`src/_worker.js` line 48 tests `/^([a-zA-Z0-9-]+\.)+[a-zA-Z]{2,}/` and, on
success, prepends `https://`.  The unanchored-tail regex holds exactly when
the string starts with one or more `[a-zA-Z0-9-]+.` groups followed by two
letters; `matchesHostV1.go` checks, after each consumed `group.`, whether
two letters follow or another group can be consumed.
-/

def isAlnumDash (c : Char) : Bool :=
  c.isAlpha || c.isDigit || c = '-'

/-- After a consumed `group.` of the hostname regex: succeed when two
letters follow, or when another `[a-zA-Z0-9-]+.` group can be consumed
followed recursively by the same test. -/
def matchesHostGo (l : List Char) : Bool :=
  (match l with
   | a :: b :: _ => a.isAlpha && b.isAlpha
   | _ => false)
  ||
  (!(splitRun isAlnumDash l).1.isEmpty &&
    (match hr : (splitRun isAlnumDash l).2 with
     | '.' :: r => matchesHostGo r
     | _ => false))
termination_by l.length
decreasing_by
  have h1 := splitRun_snd_length_le isAlnumDash l
  rw [hr] at h1
  simp only [List.length_cons] at h1
  omega

/-- Test of `/^([a-zA-Z0-9-]+\.)+[a-zA-Z]{2,}/`. -/
def matchesHostV1 (s : String) : Bool :=
  !(splitRun isAlnumDash s.data).1.isEmpty &&
    (match (splitRun isAlnumDash s.data).2 with
     | '.' :: r => matchesHostGo r
     | _ => false)

/-!
## Request pipeline

`RequestModel` carries the request components the worker reads:
`request.method`, the parsed request URL's `pathname`/`search`/`hash` and
`origin` (from `new URL(request.url)`), and the raw incoming headers.

An `Outcome` is the observable result of the pre-dispatch phase: either a
terminal `respond` (status, headers with lowercase names, body) produced
without any upstream fetch, or a `fetchUpstream` dispatch carrying the
resolved target URL string, the method and the outbound header set.  The
landing page markup returned by `getRootHtml()` is irrelevant to every claim
and is abstracted as the `Body.rootHtml` tag; `Body.upstream` likewise tags
a passed-through upstream body.
-/

inductive Body where
  | empty
  | rootHtml
  | errorText (msg : String)
  | upstream
deriving Repr, DecidableEq

inductive Outcome where
  | respond (status : Nat) (headers : HeadersL) (body : Body)
  | fetchUpstream (url : String) (method : String) (headers : HeadersL)
deriving Repr, DecidableEq

/-- Status of a terminal response (`none` when the outcome is a dispatch). -/
def Outcome.status? : Outcome → Option Nat
  | .respond s _ _ => some s
  | .fetchUpstream _ _ _ => none

/-- Does the action dispatch an upstream fetch? -/
def Outcome.isFetch : Outcome → Bool
  | .respond _ _ _ => false
  | .fetchUpstream _ _ _ => true

/-- Does the action dispatch an upstream fetch whose outbound headers
contain an `Origin` header? -/
def Outcome.sendsOrigin : Outcome → Bool
  | .respond _ _ _ => false
  | .fetchUpstream _ _ h => (hget h "origin").isSome

structure RequestModel where
  method : String
  pathname : String
  search : String
  hash : String
  origin : String
  headers : HeadersL
deriving Repr, DecidableEq

/-- Protocol fix applied by `P` (`part_003` lines 51-53, also to the referer
target at lines 64-66): when the string starts with `http` but with a
malformed separator, `^(https?):\/+` is rewritten to `scheme://`. -/
def fixProtocol (s : String) : String :=
  if strStartsWith s "http" && !strStartsWith s "http://" && !strStartsWith s "https://" then
    if strStartsWith s "https:/" then
      "https://" ++ ⟨(s.data.drop 6).dropWhile (fun c => c = '/')⟩
    else if strStartsWith s "http:/" then
      "http://" ++ ⟨(s.data.drop 5).dropWhile (fun c => c = '/')⟩
    else s
  else s

/-- `request.headers.get("Access-Control-Request-Headers") || "*"`
(JS `||`: the empty string is also replaced). -/
def orStar (o : Option String) : String :=
  match o with
  | some s => if s = "" then "*" else s
  | none => "*"

/-- Target recovery of `P` (`part_003` lines 48-77): path+search+hash with
the leading `/` stripped, protocol fix, then referer-based recovery that
resolves the full `url.pathname + url.search + url.hash` (leading slash
kept, hence root-relative for absolute-path assets) against the target
embedded in a same-origin referer. -/
def resolveActualP (req : RequestModel) : String :=
  let a1 := fixProtocol (sdropS req.pathname 1 ++ req.search ++ req.hash)
  if strStartsWith a1 "http" then a1
  else
    match hgetIn req.headers "referer" with
    | none => a1
    | some r =>
      match parseHttpUrl r with
      | none => a1
      | some ro =>
        if ro.origin = req.origin then
          let rts := fixProtocol (sdropS ro.pathname 1 ++ ro.search)
          if strStartsWith rts "http" then
            match parseHttpUrl rts with
            | none => a1
            | some base =>
              match resolveStr (req.pathname ++ req.search ++ req.hash) base with
              | some abs => abs
              | none => a1
          else a1
        else a1

/-- Target recovery of `V1` (`_worker.js` lines 26-53): no protocol fix;
referer-based recovery resolves the already-stripped
`url.pathname.slice(1) + url.search + url.hash` (leading slash removed,
hence path-relative) against the referer-embedded target; finally a string
that looks like a bare hostname gets `https://` prepended. -/
def resolveActualV1 (req : RequestModel) : String :=
  let a0 := sdropS req.pathname 1 ++ req.search ++ req.hash
  let a1 :=
    if strStartsWith a0 "http" then a0
    else
      match hgetIn req.headers "referer" with
      | none => a0
      | some r =>
        match parseHttpUrl r with
        | none => a0
        | some ro =>
          if ro.origin = req.origin then
            let rp := sdropS ro.pathname 1
            if strStartsWith rp "http" then
              match parseHttpUrl rp with
              | none => a0
              | some base =>
                match resolveStr a0 base with
                | some abs => abs
                | none => a0
            else a0
          else a0
  if strStartsWith a1 "http" then a1
  else if matchesHostV1 a1 then "https://" ++ a1
  else a1

/-- `["GET", "HEAD", "OPTIONS"].includes(request.method)`. -/
def isSafeMethod (m : String) : Bool :=
  m = "GET" || m = "HEAD" || m = "OPTIONS"

def defaultUA : String :=
  "Mozilla/5.0 (Windows NT 10.0; Win64; x64) AppleWebKit/537.36 (KHTML, like Gecko) Chrome/110.0.0.0 Safari/537.36"

/-- Request-header copy filter of `P` (`part_003` lines 100-111). -/
def skipReqHeaderP (lk : String) : Bool :=
  strStartsWith lk "cf-" || lk = "host" || lk = "origin" || lk = "referer" || lk = "cookie"

/-- Copy loop `for (const [key, value] of request.headers) ... newHeaders.set(key, value)`
with a skip predicate on the lowercased name. -/
def copyHeaders (skip : String → Bool) (incoming : HeadersL) : HeadersL :=
  incoming.foldl (fun acc kv => if skip (lowerS kv.1) then acc else hset acc kv.1 kv.2) []

/-- Outbound header construction of `P` (`part_003` lines 96-135): filtered
copy, default `User-Agent`, forged `Host`, `Origin` only for unsafe methods,
and the smart `Referer` recovery. -/
def buildHeadersP (req : RequestModel) (t : Url) : HeadersL :=
  let h0 := copyHeaders skipReqHeaderP req.headers
  let h1 := if (hget h0 "User-Agent").isSome then h0 else hset h0 "User-Agent" defaultUA
  let h2 := hset h1 "Host" t.host
  let h3 := if isSafeMethod req.method then h2 else hset h2 "Origin" t.origin
  match hgetIn req.headers "referer" with
  | some r =>
    if strStartsWith r req.origin then
      let real := sdropS r (slenS req.origin + 1)
      if strStartsWith real "http" then hset h3 "Referer" real else h3
    else hset h3 "Referer" t.href
  | none => hset h3 "Referer" t.href

/-- Request-header copy filter of `V1` (`_worker.js` lines 76-79). -/
def skipReqHeaderV1 (lk : String) : Bool :=
  strStartsWith lk "cf-"

/-- Outbound header construction of `V1` (`_worker.js` lines 74-102):
filtered copy, forged `Host` and — unconditionally, for every method —
forged `Origin`, then the `Referer` recovery (both of whose branches set a
`Referer`). -/
def buildHeadersV1 (req : RequestModel) (t : Url) : HeadersL :=
  let h0 := copyHeaders skipReqHeaderV1 req.headers
  let h2 := hset (hset h0 "Host" t.host) "Origin" t.origin
  match hgetIn req.headers "referer" with
  | some r =>
    if strStartsWith r req.origin then
      let real := sdropS r (slenS req.origin + 1)
      if strStartsWith real "http" then hset h2 "Referer" real
      else hset h2 "Referer" t.href
    else hset h2 "Referer" t.href
  | none => hset h2 "Referer" t.href

/-- Preflight response of `P` (`part_003` lines 35-45). -/
def preflightP (req : RequestModel) : Outcome :=
  .respond 204
    [("access-control-allow-origin", "*"),
     ("access-control-allow-methods", "GET, POST, PUT, DELETE, OPTIONS, PATCH, HEAD"),
     ("access-control-allow-headers", orStar (hgetIn req.headers "access-control-request-headers")),
     ("access-control-max-age", "86400")]
    .empty

/-- Preflight response of `V1` (`_worker.js` lines 56-64; default status 200). -/
def preflightV1 : Outcome :=
  .respond 200
    [("access-control-allow-origin", "*"),
     ("access-control-allow-methods", "GET, POST, PUT, DELETE, OPTIONS, PATCH"),
     ("access-control-allow-headers", "*")]
    .empty

/-- Landing-page response (`getRootHtml()` with `Content-Type: text/html`). -/
def rootResponse : Outcome :=
  .respond 200 [("content-type", "text/html; charset=utf-8")] .rootHtml

/-- Pre-dispatch phase of the `P` pipeline (`part_003` lines 17-145):
root page, favicon, OPTIONS preflight, target recovery, the two 400
branches, and otherwise the upstream dispatch with forged headers. -/
def pipelineP (req : RequestModel) : Outcome :=
  if req.pathname = "/" then rootResponse
  else if req.pathname = "/favicon.ico" then .respond 204 [] .empty
  else if req.method = "OPTIONS" then preflightP req
  else
    let actual := resolveActualP req
    if !strStartsWith actual "http" then
      .respond 400 [("access-control-allow-origin", "*")]
        (.errorText ("Invalid URL (No Protocol): " ++ actual))
    else
      match parseHttpUrl actual with
      | none =>
        .respond 400 [("access-control-allow-origin", "*")]
          (.errorText ("Invalid URL Parse Error: " ++ actual))
      | some t => .fetchUpstream actual req.method (buildHeadersP req t)

/-- Pre-dispatch phase of the `V1` pipeline (`_worker.js` lines 14-112):
root page, then target recovery (which runs before the OPTIONS branch),
then the OPTIONS preflight, the 400 branch, and the upstream dispatch. -/
def pipelineV1 (req : RequestModel) : Outcome :=
  if req.pathname = "/" then rootResponse
  else
    let actual := resolveActualV1 req
    if req.method = "OPTIONS" then preflightV1
    else
      match parseHttpUrl actual with
      | none => .respond 400 [] (.errorText ("Invalid URL: " ++ actual))
      | some t => .fetchUpstream actual req.method (buildHeadersV1 req t)

/-- The `catch` branch around `fetch` in `P` (`part_003` lines 146-151):
a terminal 502, never a retry. -/
def fetchErrorResponseP (msg : String) : Outcome :=
  .respond 502 [("access-control-allow-origin", "*")]
    (.errorText ("Proxy Fetch Error: " ++ msg))

/-- The `catch` branch around `fetch` in `V1` (`_worker.js` lines 113-115):
a terminal 500, never a retry. -/
def fetchErrorResponseV1 (msg : String) : Outcome :=
  .respond 500 [] (.errorText ("Proxy Error: " ++ msg))

/-!
## Response-header processing of `P`

`part_003` lines 154-174: strip the `UNSAFE_HEADERS`, add the permissive
CORS headers, then rewrite `Location` by resolving it against the target and
prefixing the proxy origin (a parse failure leaves it unchanged).
-/

def unsafeHeadersP : List String :=
  ["content-security-policy", "content-security-policy-report-only",
   "x-frame-options", "x-xss-protection", "x-content-type-options",
   "strict-transport-security", "clear-site-data"]

/-- `new Headers(response.headers)`: header names are normalized to
lowercase when the header list is (re)constructed. -/
def normHeaders (l : HeadersL) : HeadersL :=
  l.map (fun p => (lowerS p.1, p.2))

def processRespHeadersP (proxyOrigin : String) (t : Url) (up : HeadersL) : HeadersL :=
  let h0 := unsafeHeadersP.foldl hdel (normHeaders up)
  let h1 := hset (hset (hset (hset h0
    "Access-Control-Allow-Origin" "*")
    "Access-Control-Allow-Credentials" "true")
    "Access-Control-Allow-Methods" "GET, POST, PUT, DELETE, OPTIONS, PATCH, HEAD")
    "Access-Control-Expose-Headers" "*"
  match hget h1 "Location" with
  | none => h1
  | some loc =>
    match resolveStr loc t with
    | some abs => hset h1 "Location" (proxyOrigin ++ "/" ++ abs)
    | none => h1

/-!
## Concrete fixtures used by examples, witnesses and counterexamples
-/

def proxyOriginEx : String := "https://proxy.example"

def siteRootUrl : Url := ⟨"https", "site.example", "/", "", ""⟩

def siteAppUrl : Url := ⟨"https", "site.example", "/app", "", ""⟩

/-- The referer sent by a page proxied from `https://site.example/blog/post`. -/
def refererBlogPost : String := "https://proxy.example/https://site.example/blog/post"

/-- A GET request to the proxy carrying that referer. -/
def reqWithReferer (p : String) : RequestModel :=
  ⟨"GET", p, "", "", "https://proxy.example", [("Referer", refererBlogPost)]⟩

/-- The Set-Cookie example from the spec. -/
def cookieEx : String := "sid=abc; Domain=.site.example; Path=/app"

/-!
## Helper lemmas
-/

theorem hget_hset_self (l : HeadersL) (k v : String) :
    hget (hset l k v) k = some v := by
  simp [hget, hset]

theorem hget_hdel_ne (l : HeadersL) (k k' : String) (h : lowerS k ≠ lowerS k') :
    hget (hdel l k') k = hget l k := by
  induction l with
  | nil => rfl
  | cons p rest ih =>
    have hne2 : ¬ (lowerS k' = lowerS k) := fun hc => h hc.symm
    by_cases hp : p.1 = lowerS k'
    · have hne : ¬ (p.1 = lowerS k) := by
        rw [hp]; exact fun hc => h hc.symm
      simp [hdel, hget, hp, hne, ih, hne2]
    · by_cases hk : p.1 = lowerS k
      · simp [hdel, hget, hp, hk, h]
      · simp [hdel, hget, hp, hk, ih]

theorem hget_hset_ne (l : HeadersL) (k k' v : String) (h : lowerS k ≠ lowerS k') :
    hget (hset l k' v) k = hget l k := by
  have hne : ¬ (lowerS k' = lowerS k) := fun hc => h hc.symm
  simp only [hset, hget, hne, if_false]
  exact hget_hdel_ne l k k' h

theorem hget_normHeaders (l : HeadersL) (k : String) :
    hget (normHeaders l) k = hgetIn l k := by
  induction l with
  | nil => rfl
  | cons p rest ih =>
    by_cases h : lowerS p.1 = lowerS k
    · simp [normHeaders, hget, hgetIn, h]
    · simp only [normHeaders, List.map, hget, hgetIn, h, if_false]
      simpa [normHeaders] using ih


theorem data_append (a b : String) : (a ++ b).data = a.data ++ b.data := by
  cases a; cases b; rfl

theorem isPrefixOf_append_self (l m : List Char) : l.isPrefixOf (l ++ m) = true := by
  induction l with
  | nil => simp [List.isPrefixOf]
  | cons c cs ih => simp [List.isPrefixOf, ih]

theorem sw_append_self (a b : String) : strStartsWith (a ++ b) a = true := by
  rw [strStartsWith, data_append]
  exact isPrefixOf_append_self a.data b.data

theorem sw_append2_self (a b c : String) : strStartsWith (a ++ b ++ c) a = true := by
  rw [strStartsWith, data_append, data_append, List.append_assoc]
  exact isPrefixOf_append_self a.data (b.data ++ c.data)

theorem append_slash_ne_empty (po abs : String) : po ++ "/" ++ abs ≠ "" := by
  intro h
  have hd : (po ++ "/" ++ abs).data = ("" : String).data := congrArg String.data h
  rw [data_append, data_append] at hd
  simp at hd

/-- The client-side shim wrap is idempotent: a wrapped value starts with the
proxy origin, so a second wrap returns it unchanged. -/
theorem wrapUrl_idem (po : String) (base : Url) (u : String) :
    wrapUrl po base (wrapUrl po base u) = wrapUrl po base u := by
  by_cases h1 : u = ""
  · simp [wrapUrl, h1]
  · by_cases h2 : strStartsWith u po
    · simp [wrapUrl, h1, h2]
    · by_cases h3 : strStartsWith u "data:" || strStartsWith u "blob:" || strStartsWith u "javascript:"
      · simp only [wrapUrl, h1, if_false, h2, h3, if_true]
        simp [h1, h2, h3]
      · cases hres : resolveStr u base with
        | none => simp [wrapUrl, h1, h2, h3, hres]
        | some abs =>
          have hne := append_slash_ne_empty po abs
          have hsw := sw_append2_self po "/" abs
          simp [wrapUrl, h1, h2, h3, hres, hne, hsw]

/-!
## Claims
-/

/-- Claim C1 (corrected): the claim asserts idempotence for both the client-side
`wrapUrl` shim and the server-side attribute rewrite.  It fails for the
server side: `AttributeRewriter.element` has no already-wrapped check, so
re-encoding an already-wrapped absolute URL wraps it a second time.  At the
concrete input `https://site.example/x` (target `https://site.example/`,
proxy `https://proxy.example`) the double application differs from the
single one. -/
theorem claim1_counterexample :
    rewriteAttrValue proxyOriginEx siteRootUrl
        (rewriteAttrValue proxyOriginEx siteRootUrl "https://site.example/x")
      ≠ rewriteAttrValue proxyOriginEx siteRootUrl "https://site.example/x" := by
  decide

/-- Claim C1, amended (corrected): the client-side `wrapUrl` shim is idempotent
for every proxy origin, base and input (a wrapped value starts with the
proxy origin, so a second wrap is a no-op); the server-side
`AttributeRewriter` value rewrite is not idempotent — it double-wraps an
already-wrapped absolute URL, as witnessed at a concrete input. -/
theorem claim1_amended :
    (∀ (po : String) (base : Url) (u : String),
      wrapUrl po base (wrapUrl po base u) = wrapUrl po base u) ∧
    rewriteAttrValue proxyOriginEx siteRootUrl
        (rewriteAttrValue proxyOriginEx siteRootUrl "https://site.example/x")
      = "https://proxy.example/https://proxy.example/https://site.example/x" := by
  refine ⟨wrapUrl_idem, ?_⟩
  decide

/-- Claim C9 (corrected): the skip list is incomplete in two ways.  The
named-attribute block of `AttributeRewriter.element` has no `blob:` check,
so a `blob:` `src` value is resolved and rewritten; and the `data-src`
branch of the same handler has no skip check at all, so with the named
attribute absent a `data-src` value starting with `data:` is rewritten as
well — both contradict "a value starting with data:, blob:, javascript:,
or '#' is never rewritten". -/
theorem claim9_counterexample :
    (rewriteElement proxyOriginEx "src" siteRootUrl
        ⟨"img", [("src", "blob:https://site.example/abc")]⟩
      = ⟨"img", [("src", "https://proxy.example/blob:https://site.example/abc")]⟩ ∧
     rewriteElement proxyOriginEx "src" siteRootUrl
        ⟨"img", [("src", "blob:https://site.example/abc")]⟩
      ≠ ⟨"img", [("src", "blob:https://site.example/abc")]⟩) ∧
    (rewriteElement proxyOriginEx "src" siteRootUrl
        ⟨"img", [("data-src", "data:image/png;base64,AA")]⟩
      = ⟨"img", [("data-src", "https://proxy.example/data:image/png;base64,AA")]⟩ ∧
     rewriteElement proxyOriginEx "src" siteRootUrl
        ⟨"img", [("data-src", "data:image/png;base64,AA")]⟩
      ≠ ⟨"img", [("data-src", "data:image/png;base64,AA")]⟩) := by
  refine ⟨⟨by decide, by decide⟩, by decide, by decide⟩

/-- Claim C9, amended (corrected): the skip invariant holds exactly for the
handler's named attribute: when the element's named URL-bearing attribute
value starts with `data:`, `#` or `javascript:`, the early `return` leaves
the whole element unchanged (`srcset` and `data-src` included).  It does
not extend further: `blob:` is missing from the skip list, and the
`srcset` and `data-src` branches have no skip check of their own, so with
the named attribute absent a `data:`-prefixed `data-src` value and a
`#`-prefixed `srcset` URL are resolved and rewritten. -/
theorem claim9_amended :
    (∀ (po attrName : String) (base : Url) (e : ElementModel) (v : String),
      aget e.attrs attrName = some v →
      (strStartsWith v "data:" = true ∨ strStartsWith v "#" = true ∨
       strStartsWith v "javascript:" = true) →
      rewriteElement po attrName base e = e) ∧
    rewriteElement proxyOriginEx "src" siteRootUrl
        ⟨"img", [("data-src", "data:image/png;base64,AA")]⟩
      = ⟨"img", [("data-src", "https://proxy.example/data:image/png;base64,AA")]⟩ ∧
    rewriteElement proxyOriginEx "src" siteRootUrl ⟨"img", [("srcset", "#frag 1x")]⟩
      = ⟨"img", [("srcset", "https://proxy.example/https://site.example/#frag 1x")]⟩ := by
  refine ⟨?_, by decide, by decide⟩
  intro po attrName base e v hv hpre
  have hne : ¬ (v = "") := by
    rcases hpre with h | h | h <;>
      exact fun he => absurd (he ▸ h) (by decide)
  have hskip : skipValue v = true := by
    rcases hpre with h | h | h <;> simp [skipValue, h]
  unfold rewriteElement
  simp only [hv]
  rw [if_neg hne, if_pos hskip]

/-- Witness for `claim9_amended`: an `img` whose `src` is a `data:` URI
(and which also carries a `data-src`) is left entirely unchanged by the
early return. -/
theorem claim9_amended_witness :
    (aget [("src", "data:image/png;base64,AA"), ("data-src", "lazy.png")] "src"
        = some "data:image/png;base64,AA" ∧
     (strStartsWith "data:image/png;base64,AA" "data:" = true ∨
      strStartsWith "data:image/png;base64,AA" "#" = true ∨
      strStartsWith "data:image/png;base64,AA" "javascript:" = true)) ∧
    rewriteElement proxyOriginEx "src" siteRootUrl
        ⟨"img", [("src", "data:image/png;base64,AA"), ("data-src", "lazy.png")]⟩
      = ⟨"img", [("src", "data:image/png;base64,AA"), ("data-src", "lazy.png")]⟩ :=
  ⟨⟨by decide, Or.inl (by decide)⟩,
   claim9_amended.1 proxyOriginEx "src" siteRootUrl
     ⟨"img", [("src", "data:image/png;base64,AA"), ("data-src", "lazy.png")]⟩
     "data:image/png;base64,AA" (by decide) (Or.inl (by decide))⟩

theorem takeWhile_of_all {p : Char → Bool} {l : List Char} (h : ∀ c ∈ l, p c = true) :
    l.takeWhile p = l := by
  induction l with
  | nil => rfl
  | cons c rest ih =>
    rw [List.takeWhile_cons, h c (by simp)]
    simp [ih (fun d hd => h d (by simp [hd]))]

theorem dropWhile_of_all {p : Char → Bool} {l : List Char} (h : ∀ c ∈ l, p c = true) :
    l.dropWhile p = [] := by
  induction l with
  | nil => rfl
  | cons c rest ih =>
    rw [List.dropWhile_cons, h c (by simp)]
    simp [ih (fun d hd => h d (by simp [hd]))]

/-- Claim C2 (corrected): the claim's root-relative recovery fails for the `V1`
resolver, which strips the leading slash (`url.pathname.slice(1)`) before
resolving against the referer-embedded target, so `/assets/app.js` after
`https://site.example/blog/post` resolves under the prior page's directory:
`https://site.example/blog/assets/app.js`, exactly the result the claim
rules out. -/
theorem claim2_counterexample :
    resolveActualV1 (reqWithReferer "/assets/app.js")
        = "https://site.example/blog/assets/app.js" ∧
    resolveActualV1 (reqWithReferer "/assets/app.js")
        ≠ "https://site.example/assets/app.js" := by
  constructor <;> decide

/-- Claim C2, amended (corrected): the `P` resolver (part_003, which resolves the
full `url.pathname` with its leading slash) recovers root-relatively: for
every request path `/p` carrying no scheme (and not protocol-relative, with
no query/fragment characters) whose referer embeds the target
`https://site.example/blog/post`, the resolved target is
`https://site.example/p` — against the site root, not under `/blog/`.  The
`V1` resolver instead concatenates under the prior page's directory. -/
theorem claim2_amended (pdata : List Char)
    (hhttp : strStartsWith ⟨pdata⟩ "http" = false)
    (hslash : strStartsWith (⟨'/' :: pdata⟩ : String) "//" = false)
    (hq : '?' ∉ pdata) (hh : '#' ∉ pdata) :
    resolveActualP (reqWithReferer ⟨'/' :: pdata⟩) = "https://site.example" ++ ⟨'/' :: pdata⟩ := by
  have hfix : fixProtocol ⟨pdata⟩ = ⟨pdata⟩ := by
    unfold fixProtocol
    simp [hhttp]
  have hget1 : hgetIn [("Referer", refererBlogPost)] "referer" = some refererBlogPost := by
    decide
  have hparse1 : parseHttpUrl refererBlogPost
      = some ⟨"https", "proxy.example", "/https://site.example/blog/post", "", ""⟩ := by decide
  simp only [resolveActualP, reqWithReferer]
  rw [show sdropS (⟨'/' :: pdata⟩ : String) 1 = ⟨pdata⟩ from rfl,
      String.append_empty, String.append_empty, hfix, hhttp]
  simp only [Bool.false_eq_true, if_false, hget1, hparse1]
  rw [if_pos (show Url.origin ⟨"https", "proxy.example", "/https://site.example/blog/post", "", ""⟩
        = "https://proxy.example" from by decide)]
  rw [show fixProtocol (sdropS "/https://site.example/blog/post" 1 ++ "")
        = "https://site.example/blog/post" from by decide]
  rw [if_pos (show strStartsWith "https://site.example/blog/post" "http" = true from by decide)]
  rw [show parseHttpUrl "https://site.example/blog/post"
        = some ⟨"https", "site.example", "/blog/post", "", ""⟩ from by decide]
  rw [String.append_empty, String.append_empty]
  unfold resolveStr
  rw [show strStartsWith (⟨'/' :: pdata⟩ : String) "http://" = false from rfl,
      show strStartsWith (⟨'/' :: pdata⟩ : String) "https://" = false from rfl,
      hslash,
      show hasSchemeS ⟨'/' :: pdata⟩ = false from rfl]
  simp only [Bool.or_self, Bool.false_eq_true, if_false]
  unfold resolveRel
  rw [if_pos (show strStartsWith (⟨'/' :: pdata⟩ : String) "/" = true from by
        simp [strStartsWith, List.isPrefixOf])]
  have hsplit : splitPathQF ((⟨'/' :: pdata⟩ : String).data) = (⟨'/' :: pdata⟩, "", "") := by
    have hnohash : ∀ c ∈ '/' :: pdata, (fun x => decide (x ≠ '#')) c = true := by
      intro c hc
      simp only [List.mem_cons] at hc
      simp only [decide_eq_true_eq]
      rcases hc with rfl | hc
      · decide
      · intro he; exact hh (he ▸ hc)
    have hnoq : ∀ c ∈ '/' :: pdata, (fun x => decide (x ≠ '?')) c = true := by
      intro c hc
      simp only [List.mem_cons] at hc
      simp only [decide_eq_true_eq]
      rcases hc with rfl | hc
      · decide
      · intro he; exact hq (he ▸ hc)
    simp only [splitPathQF, breakAt]
    rw [takeWhile_of_all hnohash, dropWhile_of_all hnohash,
        takeWhile_of_all hnoq, dropWhile_of_all hnoq]
  rw [hsplit]
  simp only [Url.href]
  rw [String.append_empty, String.append_empty]
  rw [show ("https" ++ "://" ++ "site.example" : String) = "https://site.example" from by decide]

/-- Witness for `claim2_amended` at the claim's own example path
`/assets/app.js`. -/
theorem claim2_amended_witness :
    (strStartsWith ⟨"assets/app.js".data⟩ "http" = false ∧
     strStartsWith (⟨'/' :: "assets/app.js".data⟩ : String) "//" = false ∧
     '?' ∉ "assets/app.js".data ∧ '#' ∉ "assets/app.js".data) ∧
    resolveActualP (reqWithReferer ⟨'/' :: "assets/app.js".data⟩)
      = "https://site.example" ++ ⟨'/' :: "assets/app.js".data⟩ :=
  ⟨⟨by decide, by decide, by decide, by decide⟩,
   claim2_amended "assets/app.js".data (by decide) (by decide) (by decide) (by decide)⟩

/-- A `#`-line or a blank (empty or all-whitespace) line is left unchanged
by the `P` per-line playlist transform. -/
theorem m3u8LineP_preserves (po baseStr : String) (line : String)
    (h : strStartsWith line "#" = true ∨ line.data.all Char.isWhitespace = true) :
    m3u8LineP po baseStr line = line := by
  obtain ⟨ld⟩ := line
  cases ld with
  | nil => rfl
  | cons c rest =>
    have hred : m3u8LineP po baseStr ⟨c :: rest⟩
        = if c = '#' || c.isWhitespace then (⟨c :: rest⟩ : String)
          else m3u8MatchedLineP po baseStr ⟨c :: rest⟩ := rfl
    rw [hred]
    rcases h with h | h
    · have hc : c = '#' := by
        simp only [strStartsWith] at h
        unfold List.isPrefixOf at h
        simp at h
        exact h.symm
      simp [hc]
    · have hc : c.isWhitespace = true := by
        simp only [List.all_cons, Bool.and_eq_true] at h
        exact h.1
      simp [hc]

/-- Claim C3 (corrected): the `V1` playlist rewriter is not line-based — its
global replace rewrites absolute http(s) URLs anywhere in the text,
including inside a `#`-comment line, so a comment line carrying a key URI is
not emitted byte-for-byte unchanged. -/
theorem claim3_counterexample :
    m3u8TextV1 proxyOriginEx "#EXT-X-KEY:METHOD=AES-128,URI=https://key.example/k"
      ≠ "#EXT-X-KEY:METHOD=AES-128,URI=https://key.example/k" := by
  decide

/-- Claim C3, amended (corrected): in the `P` (part_003) line-based rewriter every
line beginning with `#` and every blank line is emitted byte-for-byte
unchanged at its position, and the rewritten playlist is exactly the
line-wise map re-joined; the `V1` rewriter instead rewrites absolute URLs
anywhere, including inside comment lines, as shown on a concrete key-URI
comment line. -/
theorem claim3_amended :
    (∀ (po baseStr text : String) (i : Nat) (hi : i < (splitLines text).length),
      (strStartsWith ((splitLines text).get ⟨i, hi⟩) "#" = true ∨
        ((splitLines text).get ⟨i, hi⟩).data.all Char.isWhitespace = true) →
      ((splitLines text).map (m3u8LineP po baseStr)).get ⟨i, by simpa using hi⟩
        = (splitLines text).get ⟨i, hi⟩) ∧
    (∀ po baseStr text, m3u8TextP po baseStr text
        = joinLines ((splitLines text).map (m3u8LineP po baseStr))) ∧
    m3u8TextV1 proxyOriginEx "#EXT-X-KEY:METHOD=AES-128,URI=https://key.example/k"
      = "#EXT-X-KEY:METHOD=AES-128,URI=https://proxy.example/https://key.example/k" := by
  refine ⟨?_, fun _ _ _ => rfl, by decide⟩
  intro po baseStr text i hi h
  simp only [List.get_eq_getElem, List.getElem_map]
  exact m3u8LineP_preserves po baseStr _ h

/-- Witness for `claim3_amended` on the playlist `#EXTM3U\nseg.ts`
(line 0 is a comment line and is preserved). -/
theorem claim3_amended_witness :
    (0 < (splitLines "#EXTM3U\nseg.ts").length ∧
     strStartsWith ((splitLines "#EXTM3U\nseg.ts").get ⟨0, by decide⟩) "#" = true) ∧
    ((splitLines "#EXTM3U\nseg.ts").map
        (m3u8LineP proxyOriginEx "https://cdn.example/stream/")).get ⟨0, by decide⟩
      = (splitLines "#EXTM3U\nseg.ts").get ⟨0, by decide⟩ :=
  ⟨⟨by decide, by decide⟩,
   claim3_amended.1 proxyOriginEx "https://cdn.example/stream/" "#EXTM3U\nseg.ts" 0
     (by decide) (Or.inl (by decide))⟩

theorem hget_key_congr (l : HeadersL) (k k' : String) (h : lowerS k = lowerS k') :
    hget l k = hget l k' := by
  induction l with
  | nil => rfl
  | cons p rest ih => simp [hget, h, ih]

theorem hget_foldl_hdel_ne (names : List String) (l : HeadersL) (k : String)
    (h : ∀ n ∈ names, lowerS k ≠ lowerS n) :
    hget (names.foldl hdel l) k = hget l k := by
  induction names generalizing l with
  | nil => rfl
  | cons n ns ih =>
    rw [List.foldl_cons, ih (hdel l n) (fun m hm => h m (by simp [hm]))]
    exact hget_hdel_ne l k n (h n (by simp))

/-- Claim C4 (confirmed): whenever the upstream response carries a `Location`
header whose value resolves against the target (absolute or relative), the
processed response headers carry
`Location = ProxyOrigin ++ "/" ++ resolved`. -/
theorem claim4_location_rewrite (po : String) (t : Url) (up : HeadersL) (loc abs : String)
    (h1 : hgetIn up "location" = some loc)
    (h2 : resolveStr loc t = some abs) :
    hget (processRespHeadersP po t up) "location" = some (po ++ "/" ++ abs) := by
  unfold processRespHeadersP
  have hd : hget (unsafeHeadersP.foldl hdel (normHeaders up)) "location" = some loc := by
    rw [hget_foldl_hdel_ne _ _ _ (by intro n hn; fin_cases hn <;> decide)]
    rw [hget_normHeaders]
    exact h1
  have hs : hget (hset (hset (hset (hset (unsafeHeadersP.foldl hdel (normHeaders up))
      "Access-Control-Allow-Origin" "*")
      "Access-Control-Allow-Credentials" "true")
      "Access-Control-Allow-Methods" "GET, POST, PUT, DELETE, OPTIONS, PATCH, HEAD")
      "Access-Control-Expose-Headers" "*") "Location" = some loc := by
    rw [hget_key_congr _ "Location" "location" (by decide)]
    rw [hget_hset_ne _ _ _ _ (by decide), hget_hset_ne _ _ _ _ (by decide),
        hget_hset_ne _ _ _ _ (by decide), hget_hset_ne _ _ _ _ (by decide)]
    exact hd
  simp only [hs, h2]
  rw [hget_key_congr _ "location" "Location" (by decide)]
  exact hget_hset_self _ _ _

/-- Witness for `claim4_location_rewrite` at the claim's own example:
`Location: /login` against target `https://site.example/app` becomes
`{ProxyOrigin}/https://site.example/login`. -/
theorem claim4_location_rewrite_witness :
    (hgetIn [("Location", "/login")] "location" = some "/login" ∧
     resolveStr "/login" siteAppUrl = some "https://site.example/login") ∧
    hget (processRespHeadersP proxyOriginEx siteAppUrl [("Location", "/login")]) "location"
      = some (proxyOriginEx ++ "/" ++ "https://site.example/login") :=
  ⟨⟨by decide, by decide⟩,
   claim4_location_rewrite proxyOriginEx siteAppUrl [("Location", "/login")]
     "/login" "https://site.example/login" (by decide) (by decide)⟩

/-- Claim C5 (corrected): variant 1's fetch `catch` branch returns status 500,
not the claimed 502. -/
theorem claim5_counterexample :
    (fetchErrorResponseV1 "connection refused").status? = some 500 ∧
    (fetchErrorResponseV1 "connection refused").status? ≠ some 502 := by
  constructor <;> decide

/-- Claim C5, amended (corrected): in the `P` pipeline a request whose recovered
path string carries no `http` protocol is answered with status 400 and no
upstream fetch is dispatched, and a failing upstream fetch is answered with
a terminal status-502 response (a `respond`, never another dispatch — there
is no retry); the `V1` pipeline instead answers a failing fetch with
status 500. -/
theorem claim5_amended :
    (∀ req : RequestModel, req.pathname ≠ "/" → req.pathname ≠ "/favicon.ico" →
      req.method ≠ "OPTIONS" → strStartsWith (resolveActualP req) "http" = false →
      pipelineP req = .respond 400 [("access-control-allow-origin", "*")]
        (.errorText ("Invalid URL (No Protocol): " ++ resolveActualP req)) ∧
      (pipelineP req).isFetch = false) ∧
    (∀ msg, fetchErrorResponseP msg
        = .respond 502 [("access-control-allow-origin", "*")]
            (.errorText ("Proxy Fetch Error: " ++ msg)) ∧
      (fetchErrorResponseP msg).isFetch = false) ∧
    (∀ msg, (fetchErrorResponseV1 msg).status? = some 500) := by
  refine ⟨?_, fun msg => ⟨rfl, rfl⟩, fun msg => rfl⟩
  intro req h1 h2 h3 h4
  have hp : pipelineP req = .respond 400 [("access-control-allow-origin", "*")]
      (.errorText ("Invalid URL (No Protocol): " ++ resolveActualP req)) := by
    unfold pipelineP
    rw [if_neg h1, if_neg h2, if_neg h3]
    simp only [h4, Bool.not_false, if_true]
  exact ⟨hp, by rw [hp]; rfl⟩

/-- Witness for `claim5_amended` at the concrete path `/abc` (no referer):
the recovered string `abc` has no protocol, so the response is a 400 with
no upstream fetch. -/
theorem claim5_amended_witness :
    (("/abc" : String) ≠ "/" ∧ ("/abc" : String) ≠ "/favicon.ico" ∧
     ("GET" : String) ≠ "OPTIONS" ∧
     strStartsWith (resolveActualP ⟨"GET", "/abc", "", "", "https://proxy.example", []⟩) "http"
       = false) ∧
    pipelineP ⟨"GET", "/abc", "", "", "https://proxy.example", []⟩
      = .respond 400 [("access-control-allow-origin", "*")]
        (.errorText ("Invalid URL (No Protocol): "
          ++ resolveActualP ⟨"GET", "/abc", "", "", "https://proxy.example", []⟩)) ∧
    (pipelineP ⟨"GET", "/abc", "", "", "https://proxy.example", []⟩).isFetch = false :=
  ⟨⟨by decide, by decide, by decide, by decide⟩,
   claim5_amended.1 ⟨"GET", "/abc", "", "", "https://proxy.example", []⟩
     (by decide) (by decide) (by decide) (by decide)⟩

/-- A key that the copy filter skips never appears in the copied headers. -/
theorem hget_copyHeaders_none (skip : String → Bool) (k : String)
    (hself : lowerS k = k) (hsk : skip k = true) (incoming : HeadersL) :
    hget (copyHeaders skip incoming) k = none := by
  unfold copyHeaders
  suffices h : ∀ acc : HeadersL, hget acc k = none →
      hget (incoming.foldl
        (fun acc kv => if skip (lowerS kv.1) then acc else hset acc kv.1 kv.2) acc) k = none by
    exact h [] rfl
  induction incoming with
  | nil => intro acc hacc; simpa using hacc
  | cons kv rest ih =>
    intro acc hacc
    rw [List.foldl_cons]
    apply ih
    by_cases hskip : skip (lowerS kv.1) = true
    · simp [hskip, hacc]
    · rw [if_neg hskip]
      rw [hget_hset_ne]
      · exact hacc
      · intro he
        apply hskip
        rw [← he, hself]
        exact hsk

/-- Claim C6 (corrected): the `V1` pipeline forges `Origin` unconditionally — a
plain GET dispatch to the proxy carries a spoofed `Origin` header to the
destination, contradicting the claim that GET/HEAD requests never do. -/
theorem claim6_counterexample :
    Outcome.sendsOrigin
        (pipelineV1 ⟨"GET", "/https://site.example/x", "", "", "https://proxy.example", []⟩)
      = true ∧
    hget (buildHeadersV1 ⟨"GET", "/https://site.example/x", "", "", "https://proxy.example", []⟩
        ⟨"https", "site.example", "/x", "", ""⟩) "origin"
      = some "https://site.example" := by
  constructor <;> decide

/-- Claim C6, amended (corrected): in the `P` (part_003) pipeline the outbound
`Origin` is set to the target origin only for unsafe methods — a GET or
HEAD request carries no `Origin` at all (the incoming one is dropped by the
copy filter and none is recomputed) while a non-safe method gets
`Origin = target origin`; the `V1` pipeline (and `part_005`) instead set
`Origin = target origin` for every method, including GET and HEAD. -/
theorem claim6_amended :
    (∀ (req : RequestModel) (t : Url), req.method = "GET" ∨ req.method = "HEAD" →
      hget (buildHeadersP req t) "origin" = none) ∧
    (∀ (req : RequestModel) (t : Url), isSafeMethod req.method = false →
      hget (buildHeadersP req t) "origin" = some t.origin) ∧
    (∀ (req : RequestModel) (t : Url),
      hget (buildHeadersV1 req t) "origin" = some t.origin) := by
  refine ⟨?_, ?_, ?_⟩
  · intro req t hm
    have hsafe : isSafeMethod req.method = true := by
      rcases hm with hm | hm <;> simp [isSafeMethod, hm]
    unfold buildHeadersP
    rw [hsafe]
    have hcopy : hget (copyHeaders skipReqHeaderP req.headers) "origin" = none :=
      hget_copyHeaders_none skipReqHeaderP "origin" (by decide) (by decide) req.headers
    have hua : hget (if (hget (copyHeaders skipReqHeaderP req.headers) "User-Agent").isSome
          then copyHeaders skipReqHeaderP req.headers
          else hset (copyHeaders skipReqHeaderP req.headers) "User-Agent" defaultUA)
        "origin" = none := by
      by_cases hu : (hget (copyHeaders skipReqHeaderP req.headers) "User-Agent").isSome = true
      · rw [if_pos hu]; exact hcopy
      · rw [if_neg hu]
        rw [hget_hset_ne _ _ _ _ (by decide)]
        exact hcopy
    have hhost : hget (hset (if (hget (copyHeaders skipReqHeaderP req.headers) "User-Agent").isSome
          then copyHeaders skipReqHeaderP req.headers
          else hset (copyHeaders skipReqHeaderP req.headers) "User-Agent" defaultUA) "Host" t.host)
        "origin" = none := by
      rw [hget_hset_ne _ _ _ _ (by decide)]
      exact hua
    simp only [if_true]
    cases hr : hgetIn req.headers "referer" with
    | none =>
      rw [hget_hset_ne _ _ _ _ (by decide)]
      exact hhost
    | some r =>
      by_cases hsw : strStartsWith r req.origin = true
      · simp only [hsw, if_true]
        by_cases hsw2 : strStartsWith (sdropS r (slenS req.origin + 1)) "http" = true
        · simp only [hsw2, if_true]
          rw [hget_hset_ne _ _ _ _ (by decide)]
          exact hhost
        · simp only [hsw2]
          simp only [Bool.false_eq_true, if_false]
          exact hhost
      · simp only [hsw]
        simp only [Bool.false_eq_true, if_false]
        rw [hget_hset_ne _ _ _ _ (by decide)]
        exact hhost
  · intro req t hm
    unfold buildHeadersP
    rw [hm]
    have horig : hget (hset (hset (if (hget (copyHeaders skipReqHeaderP req.headers) "User-Agent").isSome
          then copyHeaders skipReqHeaderP req.headers
          else hset (copyHeaders skipReqHeaderP req.headers) "User-Agent" defaultUA) "Host" t.host)
        "Origin" t.origin) "origin" = some t.origin := by
      rw [hget_key_congr _ "origin" "Origin" (by decide)]
      exact hget_hset_self _ _ _
    simp only [Bool.false_eq_true, if_false]
    cases hr : hgetIn req.headers "referer" with
    | none =>
      rw [hget_hset_ne _ _ _ _ (by decide)]
      exact horig
    | some r =>
      by_cases hsw : strStartsWith r req.origin = true
      · simp only [hsw, if_true]
        by_cases hsw2 : strStartsWith (sdropS r (slenS req.origin + 1)) "http" = true
        · simp only [hsw2, if_true]
          rw [hget_hset_ne _ _ _ _ (by decide)]
          exact horig
        · simp only [hsw2]
          simp only [Bool.false_eq_true, if_false]
          exact horig
      · simp only [hsw]
        simp only [Bool.false_eq_true, if_false]
        rw [hget_hset_ne _ _ _ _ (by decide)]
        exact horig
  · intro req t
    unfold buildHeadersV1
    have horig : hget (hset (hset (copyHeaders skipReqHeaderV1 req.headers) "Host" t.host)
        "Origin" t.origin) "origin" = some t.origin := by
      rw [hget_key_congr _ "origin" "Origin" (by decide)]
      exact hget_hset_self _ _ _
    cases hr : hgetIn req.headers "referer" with
    | none =>
      rw [hget_hset_ne _ _ _ _ (by decide)]
      exact horig
    | some r =>
      by_cases hsw : strStartsWith r req.origin = true
      · simp only [hsw, if_true]
        by_cases hsw2 : strStartsWith (sdropS r (slenS req.origin + 1)) "http" = true
        · simp only [hsw2, if_true]
          rw [hget_hset_ne _ _ _ _ (by decide)]
          exact horig
        · simp only [hsw2]
          simp only [Bool.false_eq_true, if_false]
          rw [hget_hset_ne _ _ _ _ (by decide)]
          exact horig
      · simp only [hsw]
        simp only [Bool.false_eq_true, if_false]
        rw [hget_hset_ne _ _ _ _ (by decide)]
        exact horig

/-- Witness for `claim6_amended`: a GET request through `P` carries no
`Origin`; a POST through `P` carries the target origin. -/
theorem claim6_amended_witness :
    (("GET" : String) = "GET" ∨ ("GET" : String) = "HEAD") ∧
    hget (buildHeadersP ⟨"GET", "/https://site.example/x", "", "", "https://proxy.example", []⟩
        ⟨"https", "site.example", "/x", "", ""⟩) "origin" = none ∧
    (isSafeMethod "POST" = false ∧
     hget (buildHeadersP ⟨"POST", "/https://site.example/x", "", "", "https://proxy.example", []⟩
         ⟨"https", "site.example", "/x", "", ""⟩) "origin"
       = some (Url.origin ⟨"https", "site.example", "/x", "", ""⟩)) :=
  ⟨Or.inl rfl,
   claim6_amended.1 ⟨"GET", "/https://site.example/x", "", "", "https://proxy.example", []⟩
     ⟨"https", "site.example", "/x", "", ""⟩ (Or.inl rfl),
   by decide,
   claim6_amended.2.1 ⟨"POST", "/https://site.example/x", "", "", "https://proxy.example", []⟩
     ⟨"https", "site.example", "/x", "", ""⟩ (by decide)⟩

/-- A string containing no (case-insensitive) occurrence of `name` is left
unchanged by the attribute-value replace scanner. -/
theorem replaceAttrValF_no_match (name : List Char) :
    ∀ (fuel : Nat) (l : List Char), l.length ≤ fuel →
      isInfixOfL name (l.map Char.toLower) = false →
      replaceAttrValF name fuel l = l := by
  intro fuel
  induction fuel with
  | zero =>
    intro l hl _
    cases l with
    | nil => rfl
    | cons c r => simp at hl
  | succ f ih =>
    intro l hl hocc
    cases l with
    | nil => rfl
    | cons c rest =>
      rw [List.map_cons] at hocc
      unfold isInfixOfL at hocc
      rw [Bool.or_eq_false_iff] at hocc
      have hpre : lcPrefix name (c :: rest) = false := by
        unfold lcPrefix
        rw [List.map_cons]
        exact hocc.1
      have hrest : isInfixOfL name (rest.map Char.toLower) = false := hocc.2
      show replaceAttrValF name (f + 1) (c :: rest) = c :: rest
      unfold replaceAttrValF
      rw [hpre]
      simp only [Bool.false_eq_true, if_false]
      rw [ih rest (by simpa using Nat.lt_succ_iff.mp (Nat.lt_of_lt_of_le (Nat.lt_succ_self _) hl)) hrest]

/-- Claim C7 (corrected): neither cited cookie rewriter normalizes the cookie
path — on the spec's own example the result keeps `Path=/app` and is not
`sid=abc; Path=/`. -/
theorem claim7_counterexample :
    rewriteSetCookieP5 cookieEx ≠ "sid=abc; Path=/" ∧
    rewriteSetCookieV1 cookieEx ≠ "sid=abc; Path=/" := by
  constructor <;> decide

/-- Claim C7, amended (corrected): the cookie rewrite strips the `Domain`
attribute (variant 1 additionally strips `Secure` and `SameSite`) but
leaves the `Path` attribute untouched: the example becomes
`sid=abc;  Path=/app` in both cited rewriters, and a Set-Cookie value with
no `Domain` attribute passes through `part_005`'s rewriter unchanged. -/
theorem claim7_amended :
    rewriteSetCookieP5 cookieEx = "sid=abc;  Path=/app" ∧
    rewriteSetCookieV1 cookieEx = "sid=abc;  Path=/app" ∧
    (∀ s : String, isInfixOfL "domain=".data (s.data.map Char.toLower) = false →
      rewriteSetCookieP5 s = s) := by
  refine ⟨by decide, by decide, ?_⟩
  intro s hs
  show (⟨replaceAttrValF "domain=".data s.data.length s.data⟩ : String) = s
  rw [replaceAttrValF_no_match "domain=".data s.data.length s.data (Nat.le_refl _) hs]

/-- Witness for `claim7_amended` on a domain-free cookie value. -/
theorem claim7_amended_witness :
    isInfixOfL "domain=".data (("sid=x; Path=/a".data).map Char.toLower) = false ∧
    rewriteSetCookieP5 "sid=x; Path=/a" = "sid=x; Path=/a" :=
  ⟨by decide, claim7_amended.2.2 "sid=x; Path=/a" (by decide)⟩

/-- Claim C8 (corrected): not every OPTIONS request is answered with the
preflight — the root-path check runs first in both pipelines, so an OPTIONS
request to `/` receives the HTML landing page, not the preflight. -/
theorem claim8_counterexample :
    pipelineP ⟨"OPTIONS", "/", "", "", "https://proxy.example", []⟩ = rootResponse ∧
    pipelineP ⟨"OPTIONS", "/", "", "", "https://proxy.example", []⟩
      ≠ preflightP ⟨"OPTIONS", "/", "", "", "https://proxy.example", []⟩ ∧
    pipelineV1 ⟨"OPTIONS", "/", "", "", "https://proxy.example", []⟩ = rootResponse ∧
    pipelineV1 ⟨"OPTIONS", "/", "", "", "https://proxy.example", []⟩ ≠ preflightV1 := by
  refine ⟨by decide, by decide, by decide, by decide⟩

/-- Claim C8, amended (corrected): every OPTIONS request whose path is not `/`
(and, in the `P` pipeline, not `/favicon.ico`) is answered with the static
preflight response and dispatches no upstream fetch; in `V1` the
target-recovery string work runs before the OPTIONS branch but its result
is discarded, so the preflight is returned for every referer and path. -/
theorem claim8_amended :
    (∀ req : RequestModel, req.method = "OPTIONS" → req.pathname ≠ "/" →
      req.pathname ≠ "/favicon.ico" →
      pipelineP req = preflightP req ∧ (pipelineP req).isFetch = false) ∧
    (∀ req : RequestModel, req.method = "OPTIONS" → req.pathname ≠ "/" →
      pipelineV1 req = preflightV1 ∧ (pipelineV1 req).isFetch = false) := by
  constructor
  · intro req hm h1 h2
    have hp : pipelineP req = preflightP req := by
      unfold pipelineP
      rw [if_neg h1, if_neg h2, if_pos hm]
    refine ⟨hp, ?_⟩
    rw [hp]
    rfl
  · intro req hm h1
    have hp : pipelineV1 req = preflightV1 := by
      unfold pipelineV1
      rw [if_neg h1]
      simp only [hm, if_true]
    refine ⟨hp, ?_⟩
    rw [hp]
    rfl

/-- Witness for `claim8_amended`: OPTIONS to `/some/path` in both
pipelines. -/
theorem claim8_amended_witness :
    (("OPTIONS" : String) = "OPTIONS" ∧ ("/some/path" : String) ≠ "/" ∧
     ("/some/path" : String) ≠ "/favicon.ico") ∧
    (pipelineP ⟨"OPTIONS", "/some/path", "", "", "https://proxy.example", []⟩
       = preflightP ⟨"OPTIONS", "/some/path", "", "", "https://proxy.example", []⟩ ∧
     (pipelineP ⟨"OPTIONS", "/some/path", "", "", "https://proxy.example", []⟩).isFetch = false) ∧
    (pipelineV1 ⟨"OPTIONS", "/some/path", "", "", "https://proxy.example", []⟩ = preflightV1 ∧
     (pipelineV1 ⟨"OPTIONS", "/some/path", "", "", "https://proxy.example", []⟩).isFetch = false) :=
  ⟨⟨rfl, by decide, by decide⟩,
   claim8_amended.1 ⟨"OPTIONS", "/some/path", "", "", "https://proxy.example", []⟩
     rfl (by decide) (by decide),
   claim8_amended.2 ⟨"OPTIONS", "/some/path", "", "", "https://proxy.example", []⟩
     rfl (by decide)⟩

/-- Claim C10 (confirmed): a request whose path is exactly `/` receives the
static HTML landing page from both pipelines, for every method — the root
branch precedes the OPTIONS branch, so even an OPTIONS preflight to `/`
gets the landing page (which differs from both preflight responses) and no
upstream fetch is dispatched. -/
theorem claim10_root_page (req : RequestModel) (h : req.pathname = "/") :
    pipelineP req = rootResponse ∧
    pipelineV1 req = rootResponse ∧
    rootResponse.isFetch = false ∧
    rootResponse ≠ preflightP req ∧
    rootResponse ≠ preflightV1 := by
  refine ⟨?_, ?_, rfl, ?_, by decide⟩
  · unfold pipelineP
    rw [if_pos h]
  · unfold pipelineV1
    rw [if_pos h]
  · intro hc
    simp [rootResponse, preflightP] at hc

/-- Witness for `claim10_root_page`: an OPTIONS request to `/`. -/
theorem claim10_root_page_witness :
    (("/" : String) = "/") ∧
    (pipelineP ⟨"OPTIONS", "/", "", "", "https://proxy.example", []⟩ = rootResponse ∧
     pipelineV1 ⟨"OPTIONS", "/", "", "", "https://proxy.example", []⟩ = rootResponse ∧
     rootResponse.isFetch = false ∧
     rootResponse ≠ preflightP ⟨"OPTIONS", "/", "", "", "https://proxy.example", []⟩ ∧
     rootResponse ≠ preflightV1) :=
  ⟨rfl, claim10_root_page ⟨"OPTIONS", "/", "", "", "https://proxy.example", []⟩ rfl⟩
